import Mathlib

/-!
# FinAIce backend: OAuth token broker and bank-data synchronisation

A shallow embedding of `src/routes/powens.js`.

Conventions of the embedding

* The Supabase store is a record of four tables, each a list of rows.  A query
  never throws: `supabase-js` reports failures in its result and the routes
  ignore that result everywhere except in the state lookup of `/exchange`.
* The aggregator (Powens) is an oracle answering each request either with data
  or with a thrown error (`axios` rejects on a transport failure and on every
  non-2xx status).  Every request made is appended to `World.calls`.
* Time is a number of milliseconds.  Every evaluation of `new Date()` or
  `Date.now()` reads `Env.clock` at the current read counter `World.ticks`
  and advances the counter, so consecutive reads may return different times.
  An ISO timestamp written to the store and parsed back is the same number.
* `crypto.randomBytes(32).toString('hex')` reads `Env.randomHex` at the draw
  counter `World.draws`.
* JSON payloads are typed: a token response carries two strings and a number
  of seconds; identifiers are strings; amounts are integers.  Fields the code
  guards with `||` or `?.` are optional.
* Console output is not part of the model.
-/

namespace Powens

/-! ## JavaScript value conventions -/

/-- Truthiness of a possibly missing string: `undefined` and `''` are falsy. -/
def truthy : Option String → Bool
  | some s => decide (s ≠ "")
  | none => false

/-- The expression `a || b` on possibly missing strings. -/
def jsOr (a b : Option String) : Option String :=
  if truthy a then a else b

/-- The expression `a || d` with a string literal `d`. -/
def jsOrD (a : Option String) (d : String) : String :=
  match a with
  | some s => if s ≠ "" then s else d
  | none => d

/-- The expression `n || 0` on a possibly missing number. -/
def jsNumOr0 (n : Option Int) : Int :=
  match n with
  | some v => if v ≠ 0 then v else 0
  | none => 0

/-- String conversion as done by template literals and `URLSearchParams`. -/
def jsStr : Option String → String
  | some s => s
  | none => "undefined"

/-! ## Configuration and collaborators -/

/-- The module-level constants read from `process.env`. -/
structure Config where
  POWENS_CLIENT_ID : Option String
  POWENS_CLIENT_SECRET : Option String
  POWENS_API_URL : Option String
  POWENS_AUTH_URL : Option String
  POWENS_REDIRECT_URI : Option String
deriving DecidableEq, Repr

/-- A thrown JavaScript error: its `message` and, for an `axios` error with a
response, `error.response.data`. -/
structure JsError where
  message : String
  responseData : Option String
deriving DecidableEq, Repr

deriving instance DecidableEq for Except

/-- The value of `error.response?.data || error.message`. -/
def JsError.details (e : JsError) : String :=
  jsOrD e.responseData e.message

/-- The form body posted to the aggregator token endpoint. -/
inductive TokenRequest where
  | authorization_code (code redirect_uri client_id client_secret : String)
  | refresh_token (refresh_token client_id client_secret : String)
deriving DecidableEq, Repr

/-- The fields read from a token response. -/
structure TokenResponse where
  access_token : String
  refresh_token : String
  expires_in : Nat
deriving DecidableEq, Repr

/-- The `currency` object of a remote account. -/
structure RemoteCurrency where
  code : Option String
deriving DecidableEq, Repr

/-- The fields of a remote account read by `syncUserData`. -/
structure RemoteAccount where
  id : String
  name : Option String
  label : Option String
  bank_name : Option String
  balance : Option Int
  type : Option String
  currency : Option RemoteCurrency
deriving DecidableEq, Repr

/-- The `category` object of a remote transaction. -/
structure RemoteCategory where
  name : Option String
deriving DecidableEq, Repr

/-- The fields of a remote transaction read by `syncUserData`. -/
structure RemoteTransaction where
  id : String
  wording : Option String
  original_wording : Option String
  value : Option Int
  date : Option String
  category : Option RemoteCategory
  type : Option String
  simplified_wording : Option String
deriving DecidableEq, Repr

/-- The body of `GET /users/me/accounts`. -/
structure AccountsData where
  accounts : Option (List RemoteAccount)
deriving DecidableEq, Repr

/-- The body of a transactions listing. -/
structure TransactionsData where
  transactions : Option (List RemoteTransaction)
deriving DecidableEq, Repr

/-- A transactions request: the account in the path (absent for
`/users/me/transactions`) and the query parameters. -/
structure TxQuery where
  accountId : Option String
  from_ : Option String
  to_ : Option String
  limit : String
deriving DecidableEq, Repr

/-- One request sent to the aggregator. -/
inductive AggCall where
  | token (req : TokenRequest)
  | accounts (bearer : String)
  | transactions (bearer : String) (q : TxQuery)
deriving DecidableEq, Repr

/-- The aggregator: each request is answered with data or with a thrown error. -/
structure Aggregator where
  token : TokenRequest → Except JsError TokenResponse
  accounts : String → Except JsError AccountsData
  transactions : String → TxQuery → Except JsError TransactionsData

/-- Everything outside the process: configuration, aggregator, clock, random
source and the URL parser behind `new URL(...)` (`none` when it throws). -/
structure Env where
  cfg : Config
  agg : Aggregator
  clock : Nat → Nat
  randomHex : Nat → String
  parseUrl : String → Option String

/-! ## Persistent store -/

/-- A row of `oauth_states`. -/
structure OAuthState where
  state : String
  user_id : String
  expires_at : Nat
  powens_user_id : Option String
deriving DecidableEq, Repr

/-- A row of `powens_tokens`. -/
structure TokenRecord where
  user_id : String
  powens_user_id : Option String
  access_token : String
  refresh_token : String
  expires_at : Nat
  updated_at : Nat
deriving DecidableEq, Repr

/-- A row of `bank_accounts`. -/
structure Account where
  user_id : String
  powens_account_id : String
  name : Option String
  bank_name : Option String
  balance : Int
  type : String
  currency : String
  is_active : Bool
  updated_at : Nat
deriving DecidableEq, Repr

/-- A row of `transactions`. -/
structure Transaction where
  user_id : String
  account_id : Option String
  powens_transaction_id : String
  description : Option String
  amount : Option Int
  date : Option String
  category : Option String
  type : Option String
  merchant : Option String
  updated_at : Nat
deriving DecidableEq, Repr

/-- The four tables. -/
structure Store where
  oauth_states : List OAuthState
  powens_tokens : List TokenRecord
  bank_accounts : List Account
  transactions : List Transaction
deriving DecidableEq, Repr

/-- The result of `.single()`: the row when the query selects exactly one,
an error (no data) otherwise. -/
def single {α : Type} : List α → Option α
  | [r] => some r
  | _ => none

/-- Modelled from the spec: the conflict target of `.upsert(row)`, which lives
in the table definitions and not in the source.  The data model gives each
table an identity key (`userId` for a token record, `(userId, remoteAccountId)`
for an account, `(userId, remoteTransactionId)` for a transaction); a row whose
key is already present is overwritten in place, any other row is added. -/
def upsertBy {α κ : Type} [DecidableEq κ] (key : α → κ) (r : α) (t : List α) : List α :=
  if t.any (fun x => decide (key x = key r)) then
    t.map (fun x => if key x = key r then r else x)
  else t ++ [r]

/-- Identity key of a token record. -/
def TokenRecord.key (r : TokenRecord) : String := r.user_id

/-- Identity key of an account row. -/
def Account.key (r : Account) : String × String := (r.user_id, r.powens_account_id)

/-- Identity key of a transaction row. -/
def Transaction.key (r : Transaction) : String × String :=
  (r.user_id, r.powens_transaction_id)

/-! ## Process state and responses -/

/-- The state threaded through a request: the store, the log of aggregator
requests, and the counters of clock reads and random draws. -/
structure World where
  store : Store
  calls : List AggCall
  ticks : Nat
  draws : Nat
deriving DecidableEq, Repr

/-- The current reading of the clock. -/
def now (env : Env) (w : World) : Nat := env.clock w.ticks

/-- Advance the clock-read counter. -/
def tick (w : World) : World := { w with ticks := w.ticks + 1 }

/-- Record a request to the aggregator. -/
def logCall (c : AggCall) (w : World) : World := { w with calls := w.calls ++ [c] }

/-- Replace the store. -/
def setStore (s : Store) (w : World) : World := { w with store := s }

/-- A parsed URL with the query parameters appended to it. -/
structure Url where
  href : String
  searchParams : List (String × String)
deriving DecidableEq, Repr

/-- A JSON response body. -/
inductive Body where
  | error (error : String)
  | errorDetails (error details : String)
  | success (message : String)
  | auth (authUrl : Url) (state : String)
  | accounts (data : AccountsData)
  | transactions (data : TransactionsData)
deriving DecidableEq, Repr

/-- An HTTP response. -/
structure Response where
  status : Nat
  body : Body
deriving DecidableEq, Repr

/-! ## Helper functions of the module -/

/-- The row written to `bank_accounts` for a remote account. -/
def accountRow (userId : String) (account : RemoteAccount) (t : Nat) : Account :=
  { user_id := userId
    powens_account_id := account.id
    name := jsOr account.name account.label
    bank_name := account.bank_name
    balance := jsNumOr0 account.balance
    type := jsOrD account.type "checking"
    currency := jsOrD (account.currency.bind (fun c => c.code)) "EUR"
    is_active := true
    updated_at := t }

/-- The row written to `transactions` for a remote transaction. -/
def transactionRow (userId : String) (transaction : RemoteTransaction) (t : Nat) :
    Transaction :=
  { user_id := userId
    account_id := none
    powens_transaction_id := transaction.id
    description := jsOr transaction.wording transaction.original_wording
    amount := transaction.value
    date := transaction.date
    category := transaction.category.bind (fun c => c.name)
    type := transaction.type
    merchant := transaction.simplified_wording
    updated_at := t }

/-- The inner loop of `syncUserData`: upsert each transaction. -/
def saveTransactions (env : Env) (userId : String) :
    List RemoteTransaction → World → World
  | [], w => w
  | transaction :: rest, w =>
    let row := transactionRow userId transaction (now env w)
    let w1 := tick w
    let w2 := setStore
      { w1.store with
        transactions := upsertBy Transaction.key row w1.store.transactions } w1
    saveTransactions env userId rest w2

/-- The outer loop of `syncUserData`: upsert the account, fetch its
transactions, save them; a failed fetch leaves the loop by throwing. -/
def saveAccounts (env : Env) (userId accessToken : String) :
    List RemoteAccount → World → World × Except JsError Unit
  | [], w => (w, .ok ())
  | account :: rest, w =>
    let row := accountRow userId account (now env w)
    let w1 := tick w
    let w2 := setStore
      { w1.store with
        bank_accounts := upsertBy Account.key row w1.store.bank_accounts } w1
    let q : TxQuery :=
      { accountId := some account.id, from_ := none, to_ := none, limit := "100" }
    let w3 := logCall (.transactions accessToken q) w2
    match env.agg.transactions accessToken q with
    | .error e => (w3, .error e)
    | .ok transactionsResponse =>
      let transactions := transactionsResponse.transactions.getD []
      saveAccounts env userId accessToken rest
        (saveTransactions env userId transactions w3)

/-- The function `syncUserData`: its `catch` logs and rethrows. -/
def syncUserData (env : Env) (userId accessToken : String) (w : World) :
    World × Except JsError Unit :=
  let w1 := logCall (.accounts accessToken) w
  match env.agg.accounts accessToken with
  | .error e => (w1, .error e)
  | .ok accountsResponse =>
    let accounts := accountsResponse.accounts.getD []
    saveAccounts env userId accessToken accounts w1

/-- The function `getValidAccessToken`.  The result is `.ok` of the returned
value (`none` for `null`) or `.error` of what the function throws. -/
def getValidAccessToken (env : Env) (userId : String) (w : World) :
    World × Except JsError (Option String) :=
  match single (w.store.powens_tokens.filter (fun r => decide (r.user_id = userId))) with
  | none => (w, .ok none)
  | some tokenData =>
    let t := now env w
    let w1 := tick w
    if tokenData.expires_at < t then
      let req := TokenRequest.refresh_token tokenData.refresh_token
        (jsStr env.cfg.POWENS_CLIENT_ID) (jsStr env.cfg.POWENS_CLIENT_SECRET)
      let w2 := logCall (.token req) w1
      match env.agg.token req with
      | .error _ => (w2, .ok none)
      | .ok response =>
        let expires := now env w2 + response.expires_in * 1000
        let w3 := tick w2
        let w4 := setStore
          { w3.store with
            powens_tokens := w3.store.powens_tokens.map (fun r =>
              if r.user_id = userId then
                { r with
                  access_token := response.access_token
                  refresh_token := response.refresh_token
                  expires_at := expires }
              else r) } w3
        (w4, .ok (some response.access_token))
    else (w1, .ok (some tokenData.access_token))

/-! ## Routes -/

/-- The route `GET /auth`. -/
def auth (env : Env) (userId : Option String) (w : World) : World × Response :=
  match userId with
  | none => (w, ⟨400, .error "userId is required"⟩)
  | some uid =>
    if uid = "" then (w, ⟨400, .error "userId is required"⟩)
    else
      let state := env.randomHex w.draws
      let w1 : World := { w with draws := w.draws + 1 }
      let row : OAuthState :=
        { state := state
          user_id := uid
          expires_at := now env w1 + 10 * 60 * 1000
          powens_user_id := none }
      let w2 := tick w1
      let w3 := setStore
        { w2.store with oauth_states := w2.store.oauth_states ++ [row] } w2
      match env.parseUrl (jsStr env.cfg.POWENS_AUTH_URL ++ "/auth/webview/fr/connect") with
      | none => (w3, ⟨500, .errorDetails "Failed to generate auth URL" "Invalid URL"⟩)
      | some href =>
        let authUrl : Url :=
          { href := href
            searchParams :=
              [ ("client_id", jsStr env.cfg.POWENS_CLIENT_ID),
                ("response_type", "code"),
                ("redirect_uri", jsStr env.cfg.POWENS_REDIRECT_URI),
                ("state", state),
                ("scope", "transactions accounts") ] }
        (w3, ⟨200, .auth authUrl state⟩)

/-- The JSON body of `POST /exchange`. -/
structure ExchangeBody where
  code : Option String
  state : Option String
  userId : Option String
deriving DecidableEq, Repr

/-- The route `POST /exchange`. -/
def exchange (env : Env) (body : ExchangeBody) (w : World) : World × Response :=
  match body.code, body.state, body.userId with
  | some code, some state, some userId =>
    if code = "" ∨ state = "" ∨ userId = "" then
      (w, ⟨400, .error "code, state, and userId are required"⟩)
    else
      match single (w.store.oauth_states.filter
          (fun r => decide (r.state = state) && decide (r.user_id = userId))) with
      | none => (w, ⟨400, .error "Invalid state"⟩)
      | some stateData =>
        let t := now env w
        let w1 := tick w
        if stateData.expires_at < t then (w1, ⟨400, .error "State expired"⟩)
        else
          let req := TokenRequest.authorization_code code
            (jsStr env.cfg.POWENS_REDIRECT_URI)
            (jsStr env.cfg.POWENS_CLIENT_ID) (jsStr env.cfg.POWENS_CLIENT_SECRET)
          let w2 := logCall (.token req) w1
          match env.agg.token req with
          | .error e => (w2, ⟨500, .errorDetails "Failed to exchange code" e.details⟩)
          | .ok tokenResponse =>
            let expires := now env w2 + tokenResponse.expires_in * 1000
            let w3 := tick w2
            let updated := now env w3
            let w4 := tick w3
            let record : TokenRecord :=
              { user_id := userId
                powens_user_id := stateData.powens_user_id
                access_token := tokenResponse.access_token
                refresh_token := tokenResponse.refresh_token
                expires_at := expires
                updated_at := updated }
            let w5 := setStore
              { w4.store with
                powens_tokens := upsertBy TokenRecord.key record w4.store.powens_tokens } w4
            let w6 := setStore
              { w5.store with
                oauth_states := w5.store.oauth_states.filter
                  (fun r => !decide (r.state = state)) } w5
            match syncUserData env userId tokenResponse.access_token w6 with
            | (w7, .error e) =>
              (w7, ⟨500, .errorDetails "Failed to exchange code" e.details⟩)
            | (w7, .ok _) => (w7, ⟨200, .success "Bank connection successful"⟩)
  | _, _, _ => (w, ⟨400, .error "code, state, and userId are required"⟩)

/-- The route `GET /accounts/:userId`. -/
def accounts (env : Env) (userId : String) (w : World) : World × Response :=
  match getValidAccessToken env userId w with
  | (w1, .error e) => (w1, ⟨500, .errorDetails "Failed to fetch accounts" e.details⟩)
  | (w1, .ok accessToken) =>
    if truthy accessToken then
      let bearer := jsStr accessToken
      let w2 := logCall (.accounts bearer) w1
      match env.agg.accounts bearer with
      | .error e => (w2, ⟨500, .errorDetails "Failed to fetch accounts" e.details⟩)
      | .ok data => (w2, ⟨200, .accounts data⟩)
    else (w1, ⟨401, .error "No valid access token"⟩)

/-- The query string of `GET /transactions/:userId`. -/
structure TransactionsQuery where
  accountId : Option String
  from_ : Option String
  to_ : Option String
  limit : Option String
deriving DecidableEq, Repr

/-- The route `GET /transactions/:userId`. -/
def transactions (env : Env) (userId : String) (query : TransactionsQuery) (w : World) :
    World × Response :=
  match getValidAccessToken env userId w with
  | (w1, .error e) =>
    (w1, ⟨500, .errorDetails "Failed to fetch transactions" e.details⟩)
  | (w1, .ok accessToken) =>
    if truthy accessToken then
      let bearer := jsStr accessToken
      let q : TxQuery :=
        { accountId := if truthy query.accountId then query.accountId else none
          from_ := query.from_
          to_ := query.to_
          limit := query.limit.getD "100" }
      let w2 := logCall (.transactions bearer q) w1
      match env.agg.transactions bearer q with
      | .error e =>
        (w2, ⟨500, .errorDetails "Failed to fetch transactions" e.details⟩)
      | .ok data => (w2, ⟨200, .transactions data⟩)
    else (w1, ⟨401, .error "No valid access token"⟩)

/-- The route `POST /sync/:userId`. -/
def sync (env : Env) (userId : String) (w : World) : World × Response :=
  match getValidAccessToken env userId w with
  | (w1, .error _) => (w1, ⟨500, .error "Sync failed"⟩)
  | (w1, .ok accessToken) =>
    if truthy accessToken then
      match syncUserData env userId (jsStr accessToken) w1 with
      | (w2, .error _) => (w2, ⟨500, .error "Sync failed"⟩)
      | (w2, .ok _) => (w2, ⟨200, .success "Data synced successfully"⟩)
    else (w1, ⟨401, .error "No valid access token"⟩)

/-- A request to one of the routes that touch the store. -/
inductive Request where
  | auth (userId : Option String)
  | exchange (body : ExchangeBody)
  | accounts (userId : String)
  | transactions (userId : String) (query : TransactionsQuery)
  | sync (userId : String)
deriving DecidableEq, Repr

/-- Serve one request. -/
def handle (env : Env) (r : Request) (w : World) : World × Response :=
  match r with
  | .auth userId => auth env userId w
  | .exchange body => exchange env body w
  | .accounts userId => accounts env userId w
  | .transactions userId query => transactions env userId query w
  | .sync userId => sync env userId w

/-- Serve a sequence of requests one after the other. -/
def serve (env : Env) : List Request → World → World
  | [], w => w
  | r :: rest, w => serve env rest (handle env r w).1

/-! ## Vocabulary of the statements -/

/-- The rows of `oauth_states` selected by the state lookup of `/exchange`. -/
def statesOf (state userId : String) (w : World) : List OAuthState :=
  w.store.oauth_states.filter
    (fun r => decide (r.state = state) && decide (r.user_id = userId))

/-- The rows of `powens_tokens` selected for a user. -/
def tokensOf (userId : String) (w : World) : List TokenRecord :=
  w.store.powens_tokens.filter (fun r => decide (r.user_id = userId))

/-- The token request of `/exchange` for an authorization code. -/
def codeRequest (env : Env) (code : String) : TokenRequest :=
  .authorization_code code (jsStr env.cfg.POWENS_REDIRECT_URI)
    (jsStr env.cfg.POWENS_CLIENT_ID) (jsStr env.cfg.POWENS_CLIENT_SECRET)

/-- The refresh request of `getValidAccessToken` for a stored record. -/
def refreshRequest (env : Env) (tokenData : TokenRecord) : TokenRequest :=
  .refresh_token tokenData.refresh_token
    (jsStr env.cfg.POWENS_CLIENT_ID) (jsStr env.cfg.POWENS_CLIENT_SECRET)

/-- The transactions request `syncUserData` sends for an account. -/
def accountQuery (account : RemoteAccount) : TxQuery :=
  { accountId := some account.id, from_ := none, to_ := none, limit := "100" }

/-- A token record after a refresh wrote new tokens and a new expiry. -/
def refreshed (tokenData : TokenRecord) (response : TokenResponse) (expires : Nat) :
    TokenRecord :=
  { tokenData with
    access_token := response.access_token
    refresh_token := response.refresh_token
    expires_at := expires }

/-- An account row without its `updated_at`. -/
def Account.content (r : Account) : Account := { r with updated_at := 0 }

/-- A transaction row without its `updated_at`. -/
def Transaction.content (r : Transaction) : Transaction := { r with updated_at := 0 }

/-- The world `/exchange` hands to the initial synchronisation: the token
request logged, three clock reads made, the token record written and every row
carrying the used state deleted. -/
def tokenStored (env : Env) (code state userId : String) (stateData : OAuthState)
    (tokenResponse : TokenResponse) (w : World) : World :=
  { store :=
      { w.store with
        powens_tokens := upsertBy TokenRecord.key
          { user_id := userId
            powens_user_id := stateData.powens_user_id
            access_token := tokenResponse.access_token
            refresh_token := tokenResponse.refresh_token
            expires_at := env.clock (w.ticks + 1) + tokenResponse.expires_in * 1000
            updated_at := env.clock (w.ticks + 2) } w.store.powens_tokens
        oauth_states := w.store.oauth_states.filter (fun r => !decide (r.state = state)) }
    calls := w.calls ++ [.token (codeRequest env code)]
    ticks := w.ticks + 3
    draws := w.draws }

/-- The query parameters `/auth` appends to the authorization URL. -/
def authParams (env : Env) (state : String) : List (String × String) :=
  [ ("client_id", jsStr env.cfg.POWENS_CLIENT_ID),
    ("response_type", "code"),
    ("redirect_uri", jsStr env.cfg.POWENS_REDIRECT_URI),
    ("state", state),
    ("scope", "transactions accounts") ]

/-- Upsert a list of rows one after the other. -/
def upsertAll {α κ : Type} [DecidableEq κ] (key : α → κ) (rows : List α) (t : List α) :
    List α :=
  rows.foldl (fun acc r => upsertBy key r acc) t

/-- The last row of a list that carries the key `k`. -/
def lastWith {α κ : Type} [DecidableEq κ] (key : α → κ) (k : κ) : List α → Option α
  | [] => none
  | r :: rest =>
    match lastWith key k rest with
    | some y => some y
    | none => if key r = k then some r else none

/-- The rows `saveTransactions` writes when the next clock read is read `k`. -/
def transactionRows (env : Env) (userId : String) :
    List RemoteTransaction → Nat → List Transaction
  | [], _ => []
  | transaction :: rest, k =>
    transactionRow userId transaction (env.clock k) :: transactionRows env userId rest (k + 1)

/-- The account rows `saveAccounts` writes when the next clock read is read `k`. -/
def accountRowsWritten (env : Env) (userId accessToken : String) :
    List RemoteAccount → Nat → List Account
  | [], _ => []
  | account :: rest, k =>
    accountRow userId account (env.clock k) ::
      match env.agg.transactions accessToken (accountQuery account) with
      | .error _ => []
      | .ok d =>
        accountRowsWritten env userId accessToken rest
          (k + 1 + (d.transactions.getD []).length)

/-- The transaction rows `saveAccounts` writes when the next clock read is
read `k`. -/
def transactionRowsWritten (env : Env) (userId accessToken : String) :
    List RemoteAccount → Nat → List Transaction
  | [], _ => []
  | account :: rest, k =>
    match env.agg.transactions accessToken (accountQuery account) with
    | .error _ => []
    | .ok d =>
      transactionRows env userId (d.transactions.getD []) (k + 1) ++
        transactionRowsWritten env userId accessToken rest
          (k + 1 + (d.transactions.getD []).length)

/-- The accounts `syncUserData` iterates over (none when the listing fails). -/
def listedAccounts (env : Env) (accessToken : String) : List RemoteAccount :=
  match env.agg.accounts accessToken with
  | .error _ => []
  | .ok d => d.accounts.getD []

/-- No stored OAuth state carries the token `state`, and at least `d` random
draws have been made. -/
def Consumed (state : String) (d : Nat) (w : World) : Prop :=
  (∀ r ∈ w.store.oauth_states, r.state ≠ state) ∧ d ≤ w.draws

/-! ## Sample collaborators and states -/

/-- A configuration with every variable set. -/
def sampleCfg : Config :=
  { POWENS_CLIENT_ID := some "client-1"
    POWENS_CLIENT_SECRET := some "secret-1"
    POWENS_API_URL := some "https://api.bank.test"
    POWENS_AUTH_URL := some "https://auth.bank.test"
    POWENS_REDIRECT_URI := some "https://app.test/powens/callback" }

/-- A configuration without client credentials. -/
def noCredentialsCfg : Config :=
  { sampleCfg with POWENS_CLIENT_ID := none, POWENS_CLIENT_SECRET := none }

/-- A remote account with one transaction behind it. -/
def sampleAccount (id : String) : RemoteAccount :=
  { id := id, name := some "Compte courant", label := none, bank_name := some "Banque"
    balance := some 12050, type := none, currency := some ⟨some "EUR"⟩ }

/-- A remote transaction. -/
def sampleTransaction (id : String) : RemoteTransaction :=
  { id := id, wording := some "CB BOULANGERIE", original_wording := none
    value := some (-450), date := some "2024-05-02", category := some ⟨some "food"⟩
    type := some "card", simplified_wording := some "BOULANGERIE" }

/-- An aggregator that answers every request: tokens `at-new`/`rt-new` valid
for an hour, two accounts, and per account one transaction carrying the
account's identifier. -/
def goodAgg : Aggregator :=
  { token := fun _ => .ok ⟨"at-new", "rt-new", 3600⟩
    accounts := fun _ => .ok ⟨some [sampleAccount "a1", sampleAccount "a2"]⟩
    transactions := fun _ q => .ok ⟨some [sampleTransaction (jsStr q.accountId)]⟩ }

/-- The error of a rejected request. -/
def upstream503 : JsError := { message := "Request failed with status code 503", responseData := none }

/-- An aggregator that issues tokens but fails every data request. -/
def noDataAgg : Aggregator :=
  { goodAgg with
    accounts := fun _ => .error upstream503
    transactions := fun _ _ => .error upstream503 }

/-- An aggregator that rejects every token request. -/
def noTokenAgg : Aggregator :=
  { goodAgg with token := fun _ => .error upstream503 }

/-- An aggregator whose transactions listing fails for account `a2` only. -/
def failA2Agg : Aggregator :=
  { goodAgg with
    accounts := fun _ =>
      .ok ⟨some [sampleAccount "a1", sampleAccount "a2", sampleAccount "a3"]⟩
    transactions := fun _ q =>
      if q.accountId = some "a2" then .error upstream503
      else .ok ⟨some [sampleTransaction (jsStr q.accountId)]⟩ }

/-- An environment whose clock advances eleven minutes between two reads and
whose random source always yields `abc123`. -/
def slowEnv (agg : Aggregator) : Env :=
  { cfg := sampleCfg
    agg := agg
    clock := fun n => 1000 + n * 660000
    randomHex := fun _ => "abc123"
    parseUrl := fun s => some s }

/-- An environment whose clock advances one millisecond per read and whose
random source yields `f00d`. -/
def fastEnv (agg : Aggregator) : Env :=
  { cfg := sampleCfg
    agg := agg
    clock := fun n => 1000 + n
    randomHex := fun _ => "f00d"
    parseUrl := fun s => some s }

/-- The environment `fastEnv` with the client id and secret unset. -/
def noCredentialsEnv : Env := { fastEnv goodAgg with cfg := noCredentialsCfg }

/-- An empty store at the start of time. -/
def emptyWorld : World :=
  { store := ⟨[], [], [], []⟩, calls := [], ticks := 0, draws := 0 }

/-- A world in which user `u2` has the pending state `abc123`. -/
def pendingWorld : World :=
  { emptyWorld with
    store := { emptyWorld.store with
      oauth_states := [⟨"abc123", "u2", 600000, none⟩] } }

/-- A token record of user `u1` expiring at time `1000`. -/
def staleRecord : TokenRecord :=
  { user_id := "u1", powens_user_id := none, access_token := "at-old"
    refresh_token := "rt-old", expires_at := 1000, updated_at := 0 }

/-- A world holding `staleRecord`, with the next clock read being read `k`. -/
def tokenWorld (k : Nat) : World :=
  { emptyWorld with
    store := { emptyWorld.store with powens_tokens := [staleRecord] }
    ticks := k }

end Powens

namespace Powens

/-! ## General facts -/

theorem filter_eq_nil_of_forall {α : Type} (p : α → Bool) (l : List α)
    (h : ∀ r ∈ l, p r = false) : l.filter p = [] := by
  simpa [List.filter_eq_nil_iff] using h

/-! ## The state check of `/exchange` -/

theorem exchange_no_matching_state (env : Env) (w : World) (code state userId : String)
    (hc : code ≠ "") (hs : state ≠ "") (hu : userId ≠ "")
    (h : ∀ r ∈ w.store.oauth_states, ¬ (r.state = state ∧ r.user_id = userId)) :
    exchange env ⟨some code, some state, some userId⟩ w
      = (w, ⟨400, .error "Invalid state"⟩) := by
  have hf : w.store.oauth_states.filter
      (fun r => decide (r.state = state) && decide (r.user_id = userId)) = [] := by
    apply filter_eq_nil_of_forall
    intro r hr
    have := h r hr
    simpa using this
  simp [exchange, hc, hs, hu, hf, single]

/-- Claim C1: when all three fields are present and no row of `oauth_states`
has both the given state and the given user, `/exchange` answers 400
`Invalid state`; the log of aggregator requests is unchanged, so the token
endpoint is not called, and the store is unchanged, so no token record is
written.  A row with the same state owned by another user does not count. -/
theorem exchange_invalid_state (env : Env) (w : World) (code state userId : String)
    (hc : code ≠ "") (hs : state ≠ "") (hu : userId ≠ "")
    (h : ∀ r ∈ w.store.oauth_states, ¬ (r.state = state ∧ r.user_id = userId)) :
    (exchange env ⟨some code, some state, some userId⟩ w).2
      = ⟨400, .error "Invalid state"⟩ ∧
    (exchange env ⟨some code, some state, some userId⟩ w).1.calls = w.calls ∧
    (exchange env ⟨some code, some state, some userId⟩ w).1.store = w.store := by
  rw [exchange_no_matching_state env w code state userId hc hs hu h]
  exact ⟨rfl, rfl, rfl⟩

/-- Instance of C1: the state `abc123` belongs to `u2`, the request names `u1`. -/
theorem exchange_invalid_state_witness :
    ("c1" ≠ "" ∧ "abc123" ≠ "" ∧ "u1" ≠ "" ∧
      ∀ r ∈ pendingWorld.store.oauth_states, ¬ (r.state = "abc123" ∧ r.user_id = "u1")) ∧
    (∃ r ∈ pendingWorld.store.oauth_states, r.state = "abc123" ∧ r.user_id = "u2") ∧
    (exchange (fastEnv goodAgg) ⟨some "c1", some "abc123", some "u1"⟩ pendingWorld).2
      = ⟨400, .error "Invalid state"⟩ ∧
    (exchange (fastEnv goodAgg) ⟨some "c1", some "abc123", some "u1"⟩ pendingWorld).1.calls
      = [] ∧
    (exchange (fastEnv goodAgg) ⟨some "c1", some "abc123", some "u1"⟩ pendingWorld).1.store
      = pendingWorld.store :=
  ⟨by decide, by decide,
    exchange_invalid_state (fastEnv goodAgg) pendingWorld "c1" "abc123" "u1"
      (by decide) (by decide) (by decide) (by decide)⟩

theorem exchange_expired (env : Env) (w : World) (code state userId : String)
    (stateData : OAuthState)
    (hc : code ≠ "") (hs : state ≠ "") (hu : userId ≠ "")
    (hrow : statesOf state userId w = [stateData])
    (hexp : stateData.expires_at < now env w) :
    exchange env ⟨some code, some state, some userId⟩ w
      = (tick w, ⟨400, .error "State expired"⟩) := by
  unfold statesOf at hrow
  simp [exchange, hc, hs, hu, hrow, single, hexp]

theorem auth_world (env : Env) (w : World) (userId : String) (hu : userId ≠ "") :
    (auth env (some userId) w).1 =
      { store := { w.store with oauth_states := w.store.oauth_states ++
          [⟨env.randomHex w.draws, userId, now env w + 10 * 60 * 1000, none⟩] }
        calls := w.calls
        ticks := w.ticks + 1
        draws := w.draws + 1 } := by
  unfold auth
  simp only [hu, if_false]
  cases env.parseUrl (jsStr env.cfg.POWENS_AUTH_URL ++ "/auth/webview/fr/connect") <;>
    simp [setStore, tick, now]

/-- Claim C2: `GET /auth` at time `t0` appends the row
`(state, userId, t0 + 10 minutes)`; an exchange with that state and user, in
any world `w2` where the lookup finds that row and whose clock reads more than
the stored expiry, answers 400 `State expired`.  Only the clock-read counter
moves: no request reaches the aggregator and no table is written. -/
theorem exchange_state_expired (env : Env) (w w2 : World) (userId code : String)
    (hu : userId ≠ "") (hc : code ≠ "") (hs : env.randomHex w.draws ≠ "")
    (hrow : statesOf (env.randomHex w.draws) userId w2
      = [⟨env.randomHex w.draws, userId, now env w + 10 * 60 * 1000, none⟩])
    (hlate : now env w + 10 * 60 * 1000 < now env w2) :
    (auth env (some userId) w).1.store.oauth_states = w.store.oauth_states ++
        [⟨env.randomHex w.draws, userId, now env w + 10 * 60 * 1000, none⟩] ∧
    exchange env ⟨some code, some (env.randomHex w.draws), some userId⟩ w2
      = (tick w2, ⟨400, .error "State expired"⟩) ∧
    (tick w2).calls = w2.calls ∧ (tick w2).store = w2.store := by
  refine ⟨by rw [auth_world env w userId hu], ?_, rfl, rfl⟩
  exact exchange_expired env w2 code _ userId _ hc hs hu hrow hlate

/-- Instance of C2: the state is requested at time 1000 and exchanged eleven
minutes later. -/
theorem exchange_state_expired_witness :
    ("u1" ≠ "" ∧ "c1" ≠ "" ∧ (slowEnv goodAgg).randomHex emptyWorld.draws ≠ "" ∧
      statesOf ((slowEnv goodAgg).randomHex emptyWorld.draws) "u1"
          (auth (slowEnv goodAgg) (some "u1") emptyWorld).1
        = [⟨"abc123", "u1", 601000, none⟩] ∧
      now (slowEnv goodAgg) emptyWorld + 10 * 60 * 1000
        < now (slowEnv goodAgg) (auth (slowEnv goodAgg) (some "u1") emptyWorld).1) ∧
    (exchange (slowEnv goodAgg) ⟨some "c1", some "abc123", some "u1"⟩
        (auth (slowEnv goodAgg) (some "u1") emptyWorld).1).2
      = ⟨400, .error "State expired"⟩ :=
  ⟨by decide,
    congrArg Prod.snd (exchange_state_expired (slowEnv goodAgg) emptyWorld
      (auth (slowEnv goodAgg) (some "u1") emptyWorld).1 "u1" "c1"
      (by decide) (by decide) (by decide) (by decide) (by decide)).2.1⟩

/-! ## `getValidAccessToken` -/

theorem getValidAccessToken_absent (env : Env) (userId : String) (w : World)
    (h : single (tokensOf userId w) = none) :
    getValidAccessToken env userId w = (w, .ok none) := by
  unfold tokensOf at h
  simp [getValidAccessToken, h]

theorem getValidAccessToken_fresh (env : Env) (userId : String) (w : World)
    (tokenData : TokenRecord) (h : tokensOf userId w = [tokenData])
    (hf : ¬ tokenData.expires_at < now env w) :
    getValidAccessToken env userId w = (tick w, .ok (some tokenData.access_token)) := by
  unfold tokensOf at h
  simp [getValidAccessToken, h, hf, single]

theorem getValidAccessToken_refresh_error (env : Env) (userId : String) (w : World)
    (tokenData : TokenRecord) (e : JsError) (h : tokensOf userId w = [tokenData])
    (hx : tokenData.expires_at < now env w)
    (he : env.agg.token (refreshRequest env tokenData) = .error e) :
    getValidAccessToken env userId w
      = (logCall (.token (refreshRequest env tokenData)) (tick w), .ok none) := by
  unfold tokensOf at h
  unfold refreshRequest at he
  simp [getValidAccessToken, h, hx, he, refreshRequest, single]

theorem getValidAccessToken_refresh_ok (env : Env) (userId : String) (w : World)
    (tokenData : TokenRecord) (response : TokenResponse)
    (h : tokensOf userId w = [tokenData])
    (hx : tokenData.expires_at < now env w)
    (he : env.agg.token (refreshRequest env tokenData) = .ok response) :
    getValidAccessToken env userId w
      = ({ store :=
            { w.store with
              powens_tokens := w.store.powens_tokens.map (fun r =>
                if r.user_id = userId then
                  refreshed r response (env.clock (w.ticks + 1) + response.expires_in * 1000)
                else r) }
           calls := w.calls ++ [.token (refreshRequest env tokenData)]
           ticks := w.ticks + 2
           draws := w.draws }, .ok (some response.access_token)) := by
  unfold tokensOf at h
  unfold refreshRequest at he
  have hx2 : tokenData.expires_at < env.clock w.ticks := hx
  simp [getValidAccessToken, h, hx2, he, refreshRequest, logCall, tick, setStore, now,
    single, refreshed]

/-- The function never throws: whatever the store, the clock and the aggregator
do, it returns a value. -/
theorem getValidAccessToken_returns (env : Env) (userId : String) (w : World) :
    ∃ v, (getValidAccessToken env userId w).2 = .ok v := by
  unfold getValidAccessToken
  split
  · exact ⟨_, rfl⟩
  · dsimp only
    split
    · split
      · exact ⟨_, rfl⟩
      · exact ⟨_, rfl⟩
    · exact ⟨_, rfl⟩

/-- Claim C5 (amended): with one stored record for the user, a clock reading
strictly greater than `expires_at` makes `getValidAccessToken` send exactly one
`refresh_token` request; it returns the aggregator's access token when that
request succeeds and `null` when it fails.  A clock reading less than or equal
to `expires_at` (equality included) sends nothing and returns the stored
access token. -/
theorem getValidAccessToken_refresh_iff_past_expiry (env : Env) (userId : String)
    (w : World) (tokenData : TokenRecord) (h : tokensOf userId w = [tokenData]) :
    (tokenData.expires_at < now env w →
      (getValidAccessToken env userId w).1.calls
          = w.calls ++ [.token (refreshRequest env tokenData)] ∧
      (∀ response, env.agg.token (refreshRequest env tokenData) = .ok response →
        (getValidAccessToken env userId w).2 = .ok (some response.access_token)) ∧
      (∀ e, env.agg.token (refreshRequest env tokenData) = .error e →
        (getValidAccessToken env userId w).2 = .ok none)) ∧
    (now env w ≤ tokenData.expires_at →
      (getValidAccessToken env userId w).1.calls = w.calls ∧
      (getValidAccessToken env userId w).2 = .ok (some tokenData.access_token)) := by
  constructor
  · intro hx
    cases he : env.agg.token (refreshRequest env tokenData) with
    | error e =>
      rw [getValidAccessToken_refresh_error env userId w tokenData e h hx he]
      refine ⟨rfl, ?_, ?_⟩
      · intro r hr
        cases hr
      · intro _ _
        rfl
    | ok response =>
      rw [getValidAccessToken_refresh_ok env userId w tokenData response h hx he]
      refine ⟨rfl, ?_, ?_⟩
      · intro r hr
        cases hr
        rfl
      · intro _ hr
        cases hr
  · intro hf
    rw [getValidAccessToken_fresh env userId w tokenData h (Nat.not_lt.mpr hf)]
    exact ⟨rfl, rfl⟩

/-- Instance of C5 (amended): the record expires at 1000 and the clock reads
1001, so the refresh is made and `at-new` is returned. -/
theorem getValidAccessToken_refresh_iff_past_expiry_witness :
    tokensOf "u1" (tokenWorld 1) = [staleRecord] ∧
    staleRecord.expires_at < now (fastEnv goodAgg) (tokenWorld 1) ∧
    (getValidAccessToken (fastEnv goodAgg) "u1" (tokenWorld 1)).1.calls
      = [.token (.refresh_token "rt-old" "client-1" "secret-1")] ∧
    (getValidAccessToken (fastEnv goodAgg) "u1" (tokenWorld 1)).2 = .ok (some "at-new") :=
  ⟨by decide, by decide,
    ((getValidAccessToken_refresh_iff_past_expiry (fastEnv goodAgg) "u1" (tokenWorld 1)
      staleRecord (by decide)).1 (by decide)).1,
    ((getValidAccessToken_refresh_iff_past_expiry (fastEnv goodAgg) "u1" (tokenWorld 1)
      staleRecord (by decide)).1 (by decide)).2.1 ⟨"at-new", "rt-new", 3600⟩ rfl⟩

/-- Counterexample to C5 as stated: the record expires at 1000 and the clock
reads exactly 1000, so `now >= expiresAt`; the aggregator would issue
`at-new`, yet no request is sent and the stored `at-old` is returned. -/
theorem getValidAccessToken_at_expiry_counterexample :
    tokensOf "u1" (tokenWorld 0) = [staleRecord] ∧
    now (fastEnv goodAgg) (tokenWorld 0) ≥ staleRecord.expires_at ∧
    (fastEnv goodAgg).agg.token (refreshRequest (fastEnv goodAgg) staleRecord)
      = .ok ⟨"at-new", "rt-new", 3600⟩ ∧
    (getValidAccessToken (fastEnv goodAgg) "u1" (tokenWorld 0)).1.calls = [] ∧
    (getValidAccessToken (fastEnv goodAgg) "u1" (tokenWorld 0)).2 = .ok (some "at-old") := by
  decide

/-- Claim C6 (amended): `getValidAccessToken` returns `null` when the user has
no token record, and returns `null` when the clock reads strictly more than the
record's `expires_at` and the refresh request fails, whatever the error; in no
case does it throw.  When the clock reads `expires_at` or less (equality
included) no refresh is attempted, so a failing aggregator goes unnoticed and
the stored access token is returned. -/
theorem getValidAccessToken_null_on_failure (env : Env) (userId : String) (w : World) :
    ((∀ r ∈ w.store.powens_tokens, r.user_id ≠ userId) →
      getValidAccessToken env userId w = (w, .ok none)) ∧
    (∀ tokenData e, tokensOf userId w = [tokenData] →
      tokenData.expires_at < now env w →
      env.agg.token (refreshRequest env tokenData) = .error e →
      (getValidAccessToken env userId w).2 = .ok none) ∧
    (∀ tokenData, tokensOf userId w = [tokenData] →
      now env w ≤ tokenData.expires_at →
      (getValidAccessToken env userId w).1.calls = w.calls ∧
      (getValidAccessToken env userId w).2 = .ok (some tokenData.access_token)) ∧
    (∃ v, (getValidAccessToken env userId w).2 = .ok v) := by
  refine ⟨fun h => ?_, fun tokenData e h hx he => ?_, fun tokenData h hf => ?_,
    getValidAccessToken_returns env userId w⟩
  · apply getValidAccessToken_absent
    have : tokensOf userId w = [] := by
      apply filter_eq_nil_of_forall
      intro r hr
      simpa using h r hr
    rw [this]
    rfl
  · rw [getValidAccessToken_refresh_error env userId w tokenData e h hx he]
  · rw [getValidAccessToken_fresh env userId w tokenData h (Nat.not_lt.mpr hf)]
    exact ⟨rfl, rfl⟩

/-- Instance of C6 (amended): a record that expired at 1000, a clock reading
1001 and an aggregator answering 503 give `null`; so does a store without any
record. -/
theorem getValidAccessToken_null_on_failure_witness :
    (tokensOf "u1" (tokenWorld 1) = [staleRecord] ∧
      staleRecord.expires_at < now (fastEnv noTokenAgg) (tokenWorld 1) ∧
      (fastEnv noTokenAgg).agg.token (refreshRequest (fastEnv noTokenAgg) staleRecord)
        = .error upstream503) ∧
    (getValidAccessToken (fastEnv noTokenAgg) "u1" (tokenWorld 1)).2 = .ok none ∧
    (∀ r ∈ emptyWorld.store.powens_tokens, r.user_id ≠ "u1") ∧
    getValidAccessToken (fastEnv noTokenAgg) "u1" emptyWorld = (emptyWorld, .ok none) :=
  ⟨by decide,
    (getValidAccessToken_null_on_failure (fastEnv noTokenAgg) "u1" (tokenWorld 1)).2.1
      staleRecord upstream503 (by decide) (by decide) (by decide),
    by decide,
    (getValidAccessToken_null_on_failure (fastEnv noTokenAgg) "u1" emptyWorld).1 (by decide)⟩

/-- Counterexample to C6 as stated: the record expires at 1000 and the clock
reads exactly 1000, so the record is expired in the sense `now >= expiresAt`;
the aggregator rejects every token request, yet the function returns the stored
`at-old` instead of `null`, without sending any request. -/
theorem getValidAccessToken_stale_despite_failure_counterexample :
    tokensOf "u1" (tokenWorld 0) = [staleRecord] ∧
    now (fastEnv noTokenAgg) (tokenWorld 0) ≥ staleRecord.expires_at ∧
    (∀ req, (fastEnv noTokenAgg).agg.token req = .error upstream503) ∧
    (getValidAccessToken (fastEnv noTokenAgg) "u1" (tokenWorld 0)).2 = .ok (some "at-old") ∧
    (getValidAccessToken (fastEnv noTokenAgg) "u1" (tokenWorld 0)).2 ≠ .ok none ∧
    (getValidAccessToken (fastEnv noTokenAgg) "u1" (tokenWorld 0)).1.calls = [] :=
  ⟨by decide, by decide, fun _ => rfl, by decide, by decide, by decide⟩

theorem refreshed_user_id (r : TokenRecord) (response : TokenResponse) (expires : Nat) :
    (refreshed r response expires).user_id = r.user_id := rfl

theorem filter_user_map_refreshed (userId : String) (response : TokenResponse)
    (expires : Nat) (l : List TokenRecord) :
    (l.map (fun r => if r.user_id = userId then refreshed r response expires else r)).filter
        (fun r => decide (r.user_id = userId))
      = (l.filter (fun r => decide (r.user_id = userId))).map
          (fun r => refreshed r response expires) := by
  induction l with
  | nil => rfl
  | cons r rest ih =>
    by_cases hr : r.user_id = userId
    · simp [List.filter_cons, hr, refreshed_user_id, ih]
    · simp [List.filter_cons, hr, ih]

/-- Claim C7: with one stored record whose `expires_at` is in the past and an
aggregator that answers the refresh, one call sends exactly one refresh
request, stores the new access token, refresh token and expiry (the time read
at the refresh plus `expires_in` seconds) and returns the new access token; a
second call whose clock reading does not exceed the new expiry sends nothing,
leaves the store alone and returns the same new token. -/
theorem getValidAccessToken_refresh_once (env : Env) (userId : String) (w : World)
    (tokenData : TokenRecord) (response : TokenResponse)
    (h : tokensOf userId w = [tokenData])
    (hx : tokenData.expires_at < now env w)
    (hok : env.agg.token (refreshRequest env tokenData) = .ok response)
    (hsoon : now env (getValidAccessToken env userId w).1
      ≤ env.clock (w.ticks + 1) + response.expires_in * 1000) :
    (getValidAccessToken env userId w).1.calls
      = w.calls ++ [.token (refreshRequest env tokenData)] ∧
    (getValidAccessToken env userId w).2 = .ok (some response.access_token) ∧
    tokensOf userId (getValidAccessToken env userId w).1
      = [refreshed tokenData response
          (env.clock (w.ticks + 1) + response.expires_in * 1000)] ∧
    (getValidAccessToken env userId (getValidAccessToken env userId w).1).1.calls
      = (getValidAccessToken env userId w).1.calls ∧
    (getValidAccessToken env userId (getValidAccessToken env userId w).1).1.store
      = (getValidAccessToken env userId w).1.store ∧
    (getValidAccessToken env userId (getValidAccessToken env userId w).1).2
      = .ok (some response.access_token) := by
  have h1 := getValidAccessToken_refresh_ok env userId w tokenData response h hx hok
  have ht : tokensOf userId (getValidAccessToken env userId w).1
      = [refreshed tokenData response
          (env.clock (w.ticks + 1) + response.expires_in * 1000)] := by
    rw [h1]
    unfold tokensOf at h ⊢
    simp only [filter_user_map_refreshed, h, List.map_cons, List.map_nil]
  have h2 := getValidAccessToken_fresh env userId (getValidAccessToken env userId w).1
    _ ht (Nat.not_lt.mpr hsoon)
  refine ⟨by rw [h1], by rw [h1], ht, ?_, ?_, ?_⟩
  · rw [h2]; rfl
  · rw [h2]; rfl
  · rw [h2]; rfl

/-- Instance of C7: the record expired at 1000, the clock reads 1001, 1002,
1003; the refresh at 1002 stores expiry 3601002 and the second call at 1003
answers from the store. -/
theorem getValidAccessToken_refresh_once_witness :
    (tokensOf "u1" (tokenWorld 1) = [staleRecord] ∧
      staleRecord.expires_at < now (fastEnv goodAgg) (tokenWorld 1) ∧
      (fastEnv goodAgg).agg.token (refreshRequest (fastEnv goodAgg) staleRecord)
        = .ok ⟨"at-new", "rt-new", 3600⟩ ∧
      now (fastEnv goodAgg) (getValidAccessToken (fastEnv goodAgg) "u1" (tokenWorld 1)).1
        ≤ (fastEnv goodAgg).clock ((tokenWorld 1).ticks + 1) + 3600 * 1000) ∧
    tokensOf "u1" (getValidAccessToken (fastEnv goodAgg) "u1" (tokenWorld 1)).1
      = [{ staleRecord with
            access_token := "at-new", refresh_token := "rt-new", expires_at := 3601002 }] ∧
    (getValidAccessToken (fastEnv goodAgg) "u1"
        (getValidAccessToken (fastEnv goodAgg) "u1" (tokenWorld 1)).1).1.calls
      = [.token (.refresh_token "rt-old" "client-1" "secret-1")] ∧
    (getValidAccessToken (fastEnv goodAgg) "u1"
        (getValidAccessToken (fastEnv goodAgg) "u1" (tokenWorld 1)).1).2
      = .ok (some "at-new") :=
  ⟨by decide,
    (getValidAccessToken_refresh_once (fastEnv goodAgg) "u1" (tokenWorld 1) staleRecord
      ⟨"at-new", "rt-new", 3600⟩ (by decide) (by decide) (by decide) (by decide)).2.2.1,
    by decide, by decide⟩

/-! ## The outcome of `/exchange` after the token was issued -/

theorem exchange_after_token (env : Env) (w : World) (code state userId : String)
    (stateData : OAuthState) (tokenResponse : TokenResponse)
    (hc : code ≠ "") (hs : state ≠ "") (hu : userId ≠ "")
    (hrow : statesOf state userId w = [stateData])
    (hfresh : ¬ stateData.expires_at < now env w)
    (htok : env.agg.token (codeRequest env code) = .ok tokenResponse) :
    exchange env ⟨some code, some state, some userId⟩ w
      = ((syncUserData env userId tokenResponse.access_token
            (tokenStored env code state userId stateData tokenResponse w)).1,
          match (syncUserData env userId tokenResponse.access_token
            (tokenStored env code state userId stateData tokenResponse w)).2 with
          | .error e => ⟨500, .errorDetails "Failed to exchange code" e.details⟩
          | .ok _ => ⟨200, .success "Bank connection successful"⟩) := by
  unfold statesOf at hrow
  unfold codeRequest at htok
  unfold exchange
  simp only [hc, hs, hu, or_self, if_false, hrow, single, hfresh, htok]
  show (match syncUserData env userId tokenResponse.access_token
      (tokenStored env code state userId stateData tokenResponse w) with
    | (w7, .error e) =>
      (w7, (⟨500, .errorDetails "Failed to exchange code" e.details⟩ : Response))
    | (w7, .ok _) => (w7, ⟨200, .success "Bank connection successful"⟩)) = _
  cases hsync : syncUserData env userId tokenResponse.access_token
      (tokenStored env code state userId stateData tokenResponse w) with
  | mk w7 r =>
    cases r <;> rfl

/-- Claim C4 (amended): when the state check and the token exchange succeed,
`/exchange` stores the token record, deletes the state and then awaits
`syncUserData` on that world; it answers `success: true` exactly when the
synchronisation returns, and answers 500 `Failed to exchange code` with the
details of the synchronisation error when it throws. -/
theorem exchange_reports_sync_outcome (env : Env) (w : World) (code state userId : String)
    (stateData : OAuthState) (tokenResponse : TokenResponse)
    (hc : code ≠ "") (hs : state ≠ "") (hu : userId ≠ "")
    (hrow : statesOf state userId w = [stateData])
    (hfresh : ¬ stateData.expires_at < now env w)
    (htok : env.agg.token (codeRequest env code) = .ok tokenResponse) :
    (exchange env ⟨some code, some state, some userId⟩ w).1
      = (syncUserData env userId tokenResponse.access_token
          (tokenStored env code state userId stateData tokenResponse w)).1 ∧
    (exchange env ⟨some code, some state, some userId⟩ w).2
      = (match (syncUserData env userId tokenResponse.access_token
            (tokenStored env code state userId stateData tokenResponse w)).2 with
          | .error e => ⟨500, .errorDetails "Failed to exchange code" e.details⟩
          | .ok _ => ⟨200, .success "Bank connection successful"⟩) := by
  rw [exchange_after_token env w code state userId stateData tokenResponse
    hc hs hu hrow hfresh htok]
  exact ⟨rfl, rfl⟩

/-- Instance of C4 (amended): a valid state and an aggregator that issues the
token and serves the data give `success: true`. -/
theorem exchange_reports_sync_outcome_witness :
    ("c1" ≠ "" ∧ "abc123" ≠ "" ∧ "u2" ≠ "" ∧
      statesOf "abc123" "u2" pendingWorld = [⟨"abc123", "u2", 600000, none⟩] ∧
      ¬ (600000 < now (fastEnv goodAgg) pendingWorld) ∧
      (fastEnv goodAgg).agg.token (codeRequest (fastEnv goodAgg) "c1")
        = .ok ⟨"at-new", "rt-new", 3600⟩) ∧
    (exchange (fastEnv goodAgg) ⟨some "c1", some "abc123", some "u2"⟩ pendingWorld).2
      = ⟨200, .success "Bank connection successful"⟩ :=
  ⟨by decide,
    (exchange_reports_sync_outcome (fastEnv goodAgg) pendingWorld "c1" "abc123" "u2"
      ⟨"abc123", "u2", 600000, none⟩ ⟨"at-new", "rt-new", 3600⟩
      (by decide) (by decide) (by decide) (by decide) (by decide) (by decide)).2⟩

/-- Counterexample to C4 as stated: the state is valid and the aggregator
issues the token, the initial synchronisation fails on the accounts listing,
and the caller receives 500 `Failed to exchange code`, not `success: true`,
although the token record has been stored and the state deleted. -/
theorem exchange_sync_failure_counterexample :
    statesOf "abc123" "u2" pendingWorld = [⟨"abc123", "u2", 600000, none⟩] ∧
    ¬ (600000 < now (fastEnv noDataAgg) pendingWorld) ∧
    (fastEnv noDataAgg).agg.token (codeRequest (fastEnv noDataAgg) "c1")
      = .ok ⟨"at-new", "rt-new", 3600⟩ ∧
    (syncUserData (fastEnv noDataAgg) "u2" "at-new"
        (tokenStored (fastEnv noDataAgg) "c1" "abc123" "u2" ⟨"abc123", "u2", 600000, none⟩
          ⟨"at-new", "rt-new", 3600⟩ pendingWorld)).2 = .error upstream503 ∧
    (exchange (fastEnv noDataAgg) ⟨some "c1", some "abc123", some "u2"⟩ pendingWorld).2
      = ⟨500, .errorDetails "Failed to exchange code" "Request failed with status code 503"⟩ ∧
    (exchange (fastEnv noDataAgg) ⟨some "c1", some "abc123", some "u2"⟩ pendingWorld).2
      ≠ ⟨200, .success "Bank connection successful"⟩ ∧
    tokensOf "u2"
        (exchange (fastEnv noDataAgg) ⟨some "c1", some "abc123", some "u2"⟩ pendingWorld).1
      = [⟨"u2", none, "at-new", "rt-new", 3601001, 1002⟩] ∧
    (exchange (fastEnv noDataAgg) ⟨some "c1", some "abc123", some "u2"⟩
        pendingWorld).1.store.oauth_states = [] := by
  decide

/-! ## `GET /auth` and the client credentials -/

/-- Claim C10 (amended): `/auth` never inspects the client credentials.  For
every configuration, set or unset, in which the authorization base URL parses,
it answers 200 with the authorization URL and the state token and has stored
the state row; an unset client id appears in the URL as the text
`undefined`. -/
theorem auth_ignores_credentials (env : Env) (w : World) (userId href : String)
    (hu : userId ≠ "")
    (hurl : env.parseUrl (jsStr env.cfg.POWENS_AUTH_URL ++ "/auth/webview/fr/connect")
      = some href) :
    (auth env (some userId) w).2
      = ⟨200, .auth ⟨href, authParams env (env.randomHex w.draws)⟩ (env.randomHex w.draws)⟩ ∧
    (auth env (some userId) w).1.store.oauth_states = w.store.oauth_states ++
      [⟨env.randomHex w.draws, userId, now env w + 10 * 60 * 1000, none⟩] ∧
    (env.cfg.POWENS_CLIENT_ID = none →
      ("client_id", "undefined") ∈ authParams env (env.randomHex w.draws)) := by
  refine ⟨?_, by rw [auth_world env w userId hu], ?_⟩
  · unfold auth
    simp only [hu, if_false, hurl]
    rfl
  · intro hid
    simp [authParams, hid, jsStr]

/-- Instance of C10 (amended): neither client id nor client secret is set. -/
theorem auth_ignores_credentials_witness :
    ("u1" ≠ "" ∧
      noCredentialsEnv.parseUrl
          (jsStr noCredentialsEnv.cfg.POWENS_AUTH_URL ++ "/auth/webview/fr/connect")
        = some "https://auth.bank.test/auth/webview/fr/connect") ∧
    (noCredentialsEnv.cfg.POWENS_CLIENT_ID = none ∧
      noCredentialsEnv.cfg.POWENS_CLIENT_SECRET = none) ∧
    (auth noCredentialsEnv (some "u1") emptyWorld).2
      = ⟨200, .auth ⟨"https://auth.bank.test/auth/webview/fr/connect",
          [("client_id", "undefined"), ("response_type", "code"),
            ("redirect_uri", "https://app.test/powens/callback"), ("state", "f00d"),
            ("scope", "transactions accounts")]⟩ "f00d"⟩ :=
  ⟨by decide, by decide,
    (auth_ignores_credentials noCredentialsEnv emptyWorld "u1"
      "https://auth.bank.test/auth/webview/fr/connect" (by decide) (by decide)).1⟩

/-- Counterexample to C10 as stated: with client id and client secret both
unset, `/auth` answers 200 with an authorization URL and a state token, and
the state row is stored. -/
theorem auth_without_credentials_counterexample :
    noCredentialsEnv.cfg.POWENS_CLIENT_ID = none ∧
    noCredentialsEnv.cfg.POWENS_CLIENT_SECRET = none ∧
    (auth noCredentialsEnv (some "u1") emptyWorld).2.status = 200 ∧
    (∃ authUrl state, (auth noCredentialsEnv (some "u1") emptyWorld).2.body
      = .auth authUrl state) ∧
    (auth noCredentialsEnv (some "u1") emptyWorld).1.store.oauth_states
      = [⟨"f00d", "u1", 601000, none⟩] := by
  refine ⟨by decide, by decide, by decide, ⟨_, _, rfl⟩, by decide⟩

/-! ## Upserts -/

section Upsert

variable {α κ : Type} [DecidableEq κ] (key : α → κ)

theorem upsertBy_of_present (r : α) (t : List α) (h : ∃ x ∈ t, key x = key r) :
    upsertBy key r t = t.map (fun x => if key x = key r then r else x) := by
  have : t.any (fun x => decide (key x = key r)) = true := by
    simpa [List.any_eq_true] using h
  simp [upsertBy, this]

theorem upsertBy_of_absent (r : α) (t : List α) (h : ¬ ∃ x ∈ t, key x = key r) :
    upsertBy key r t = t ++ [r] := by
  have : ¬ (t.any (fun x => decide (key x = key r)) = true) := by
    simpa [List.any_eq_true] using h
  simp [upsertBy, this]

theorem mem_upsertBy (r x : α) (t : List α) (hx : x ∈ upsertBy key r t) :
    x = r ∨ x ∈ t := by
  by_cases h : ∃ y ∈ t, key y = key r
  · rw [upsertBy_of_present key r t h, List.mem_map] at hx
    obtain ⟨y, hy, rfl⟩ := hx
    by_cases hk : key y = key r
    · simp [hk]
    · simp [hk, hy]
  · rw [upsertBy_of_absent key r t h] at hx
    simp only [List.mem_append, List.mem_singleton] at hx
    exact hx.symm

theorem eq_of_mem_upsertBy_of_key (r x : α) (t : List α) (hx : x ∈ upsertBy key r t)
    (hk : key x = key r) : x = r := by
  by_cases h : ∃ y ∈ t, key y = key r
  · rw [upsertBy_of_present key r t h, List.mem_map] at hx
    obtain ⟨y, _, rfl⟩ := hx
    by_cases hy : key y = key r
    · simp [hy]
    · simp [hy] at hk
  · rw [upsertBy_of_absent key r t h] at hx
    simp only [List.mem_append, List.mem_singleton] at hx
    rcases hx with hx | hx
    · exact absurd ⟨x, hx, hk⟩ h
    · exact hx

theorem key_mem_upsertBy_self (r : α) (t : List α) :
    ∃ x ∈ upsertBy key r t, key x = key r := by
  by_cases h : ∃ y ∈ t, key y = key r
  · rw [upsertBy_of_present key r t h]
    obtain ⟨y, hy, hk⟩ := h
    exact ⟨r, List.mem_map.mpr ⟨y, hy, by simp [hk]⟩, rfl⟩
  · rw [upsertBy_of_absent key r t h]
    exact ⟨r, by simp, rfl⟩

theorem key_mem_upsertBy_of_mem (r : α) (t : List α) (k : κ) (h : ∃ x ∈ t, key x = k) :
    ∃ x ∈ upsertBy key r t, key x = k := by
  obtain ⟨x, hx, hk⟩ := h
  by_cases hp : ∃ y ∈ t, key y = key r
  · rw [upsertBy_of_present key r t hp]
    by_cases hxr : key x = key r
    · exact ⟨r, List.mem_map.mpr ⟨x, hx, by simp [hxr]⟩, by rw [← hxr, hk]⟩
    · exact ⟨x, List.mem_map.mpr ⟨x, hx, by simp [hxr]⟩, hk⟩
  · rw [upsertBy_of_absent key r t hp]
    exact ⟨x, by simp [hx], hk⟩

theorem upsertAll_nil (t : List α) : upsertAll key [] t = t := rfl

theorem upsertAll_cons (r : α) (rows t : List α) :
    upsertAll key (r :: rows) t = upsertAll key rows (upsertBy key r t) := rfl

theorem upsertAll_append (rows more t : List α) :
    upsertAll key (rows ++ more) t = upsertAll key more (upsertAll key rows t) := by
  simp [upsertAll, List.foldl_append]

theorem lastWith_append_singleton (k : κ) (rows : List α) (r : α) :
    lastWith key k (rows ++ [r])
      = if key r = k then some r else lastWith key k rows := by
  induction rows with
  | nil => by_cases h : key r = k <;> simp [lastWith, h]
  | cons a rest ih =>
    have hstep : lastWith key k (a :: (rest ++ [r]))
        = (match lastWith key k (rest ++ [r]) with
          | some y => some y
          | none => if key a = k then some a else none) := rfl
    rw [List.cons_append, hstep, ih]
    by_cases h : key r = k
    · simp [h]
    · simp [h, lastWith]

theorem lastWith_map (E : α → α) (hE : ∀ r, key (E r) = key r) (k : κ) (rows : List α) :
    lastWith key k (rows.map E) = (lastWith key k rows).map E := by
  induction rows with
  | nil => rfl
  | cons a rest ih =>
    simp only [List.map_cons, lastWith, ih, hE]
    cases lastWith key k rest with
    | some y => rfl
    | none => by_cases h : key a = k <;> simp [h]

/-- Upserting rows whose keys are all present rewrites each stored row to the
last written row with its key. -/
theorem upsertAll_of_present (rows : List α) :
    ∀ t : List α, (∀ r ∈ rows, ∃ x ∈ t, key x = key r) →
      upsertAll key rows t = t.map (fun x => (lastWith key (key x) rows).getD x) := by
  induction rows with
  | nil => intro t _; simp [upsertAll, lastWith]
  | cons r rest ih =>
    intro t h
    have hr : ∃ x ∈ t, key x = key r := h r (List.mem_cons_self _ _)
    rw [upsertAll_cons, upsertBy_of_present key r t hr]
    rw [ih]
    · rw [List.map_map]
      apply List.map_congr_left
      intro x _
      by_cases hx : key x = key r
      · simp only [Function.comp, hx, if_true, lastWith]
        cases lastWith key (key r) rest with
        | some y => rfl
        | none => simp
      · simp only [Function.comp, hx, if_false, lastWith]
        cases lastWith key (key x) rest with
        | some y => rfl
        | none =>
          have : ¬ key r = key x := fun e => hx e.symm
          simp [this]
    · intro r2 hr2
      obtain ⟨x, hx, hk⟩ := h r2 (List.mem_cons_of_mem _ hr2)
      refine ⟨if key x = key r then r else x, List.mem_map.mpr ⟨x, hx, rfl⟩, ?_⟩
      by_cases hxr : key x = key r
      · rw [if_pos hxr, ← hk, hxr]
      · rw [if_neg hxr]
        exact hk

/-- After a batch of upserts every written key is stored. -/
theorem key_mem_upsertAll (rows : List α) :
    ∀ t : List α, ∀ r ∈ rows, ∃ x ∈ upsertAll key rows t, key x = key r := by
  induction rows using List.reverseRecOn with
  | nil => intro t r hr; cases hr
  | append_singleton rest a ih =>
    intro t r hr
    rw [upsertAll_append, upsertAll_cons, upsertAll_nil]
    rcases List.mem_append.mp hr with h | h
    · exact key_mem_upsertBy_of_mem key a _ _ (ih t r h)
    · rw [List.mem_singleton.mp h]
      exact key_mem_upsertBy_self key a _

/-- After a batch of upserts a stored row whose key was written is the last
row written with that key. -/
theorem eq_lastWith_of_mem_upsertAll (rows : List α) :
    ∀ t : List α, ∀ x ∈ upsertAll key rows t, ∀ y,
      lastWith key (key x) rows = some y → x = y := by
  induction rows using List.reverseRecOn with
  | nil => intro t x _ y hy; simp [lastWith] at hy
  | append_singleton rest a ih =>
    intro t x hx y hy
    rw [upsertAll_append, upsertAll_cons, upsertAll_nil] at hx
    rw [lastWith_append_singleton] at hy
    by_cases hk : key a = key x
    · rw [if_pos hk] at hy
      have := eq_of_mem_upsertBy_of_key key a x _ hx hk.symm
      rw [this]
      exact Option.some.inj hy
    · rw [if_neg hk] at hy
      rcases mem_upsertBy key a x _ hx with h | h
      · exact absurd (by rw [h]) hk
      · exact ih t x h y hy

/-- Repeating a batch of upserts, with rows that agree with the first batch up
to a key-preserving projection `E`, leaves the table the same up to `E`. -/
theorem upsertAll_twice (E : α → α) (hE : ∀ r, key (E r) = key r)
    (rows rows2 : List α) (h : rows2.map E = rows.map E) (t : List α) :
    (upsertAll key rows2 (upsertAll key rows t)).map E
      = (upsertAll key rows t).map E := by
  have hkeys : rows2.map key = rows.map key := by
    have h1 : (rows2.map E).map key = (rows.map E).map key := by rw [h]
    have hcomp : key ∘ E = key := funext hE
    rw [List.map_map, List.map_map, hcomp] at h1
    exact h1
  have hpresent : ∀ r ∈ rows2, ∃ x ∈ upsertAll key rows t, key x = key r := by
    intro r hr
    have : key r ∈ rows.map key := by
      rw [← hkeys]
      exact List.mem_map.mpr ⟨r, hr, rfl⟩
    obtain ⟨r1, hr1, hk⟩ := List.mem_map.mp this
    rw [← hk]
    exact key_mem_upsertAll key rows t r1 hr1
  rw [upsertAll_of_present key rows2 _ hpresent, List.map_map]
  apply List.map_congr_left
  intro x hx
  simp only [Function.comp]
  cases h2 : lastWith key (key x) rows2 with
  | none => rfl
  | some y2 =>
    have hm : (lastWith key (key x) rows).map E = some (E y2) := by
      rw [← lastWith_map key E hE, ← h, lastWith_map key E hE, h2]
      rfl
    cases h1 : lastWith key (key x) rows with
    | none => rw [h1] at hm; cases hm
    | some y1 =>
      rw [h1] at hm
      have hx1 := eq_lastWith_of_mem_upsertAll key rows t x hx y1 h1
      simp only [Option.map_some', Option.some.injEq] at hm
      simp only [Option.getD_some]
      rw [hx1, hm]

end Upsert

/-! ## What a synchronisation writes -/

theorem saveTransactions_eq (env : Env) (userId : String) (ts : List RemoteTransaction) :
    ∀ w : World, saveTransactions env userId ts w
      = { store :=
            { w.store with
              transactions := upsertAll Transaction.key
                (transactionRows env userId ts w.ticks) w.store.transactions }
          calls := w.calls
          ticks := w.ticks + ts.length
          draws := w.draws } := by
  induction ts with
  | nil => intro w; rfl
  | cons t rest ih =>
    intro w
    rw [saveTransactions, ih]
    simp only [setStore, tick, now, transactionRows, upsertAll_cons, List.length_cons]
    congr 1
    omega

theorem saveAccounts_store (env : Env) (userId accessToken : String)
    (l : List RemoteAccount) :
    ∀ w : World,
      (saveAccounts env userId accessToken l w).1.store
        = { w.store with
            bank_accounts := upsertAll Account.key
              (accountRowsWritten env userId accessToken l w.ticks) w.store.bank_accounts
            transactions := upsertAll Transaction.key
              (transactionRowsWritten env userId accessToken l w.ticks)
              w.store.transactions } ∧
      (saveAccounts env userId accessToken l w).1.draws = w.draws := by
  induction l with
  | nil => intro w; exact ⟨rfl, rfl⟩
  | cons a rest ih =>
    intro w
    unfold saveAccounts accountRowsWritten transactionRowsWritten
    simp only [accountQuery]
    cases hq : env.agg.transactions accessToken
        { accountId := some a.id, from_ := none, to_ := none, limit := "100" } with
    | error e => exact ⟨rfl, rfl⟩
    | ok d =>
      simp only []
      rw [saveTransactions_eq]
      refine ⟨?_, (ih _).2⟩
      rw [(ih _).1]
      simp only [logCall, setStore, tick, now, upsertAll_cons, upsertAll_append]

theorem syncUserData_store (env : Env) (userId accessToken : String) (w : World) :
    (syncUserData env userId accessToken w).1.store
      = { w.store with
          bank_accounts := upsertAll Account.key
            (accountRowsWritten env userId accessToken (listedAccounts env accessToken)
              w.ticks) w.store.bank_accounts
          transactions := upsertAll Transaction.key
            (transactionRowsWritten env userId accessToken (listedAccounts env accessToken)
              w.ticks) w.store.transactions } ∧
    (syncUserData env userId accessToken w).1.draws = w.draws := by
  unfold syncUserData listedAccounts
  cases env.agg.accounts accessToken with
  | error e => exact ⟨rfl, rfl⟩
  | ok d =>
    simp only []
    exact saveAccounts_store env userId accessToken (d.accounts.getD [])
      (logCall (.accounts accessToken) w)

theorem transactionRows_content (env : Env) (userId : String)
    (ts : List RemoteTransaction) :
    ∀ k k2 : Nat, (transactionRows env userId ts k2).map Transaction.content
      = (transactionRows env userId ts k).map Transaction.content := by
  induction ts with
  | nil => intro k k2; rfl
  | cons t rest ih =>
    intro k k2
    simp only [transactionRows, List.map_cons, ih (k + 1) (k2 + 1)]
    rfl

theorem accountRowsWritten_content (env : Env) (userId accessToken : String)
    (l : List RemoteAccount) :
    ∀ k k2 : Nat, (accountRowsWritten env userId accessToken l k2).map Account.content
      = (accountRowsWritten env userId accessToken l k).map Account.content := by
  induction l with
  | nil => intro k k2; rfl
  | cons a rest ih =>
    intro k k2
    unfold accountRowsWritten
    cases env.agg.transactions accessToken (accountQuery a) with
    | error e => rfl
    | ok d =>
      simp only [List.map_cons]
      rw [ih (k + 1 + (d.transactions.getD []).length)
        (k2 + 1 + (d.transactions.getD []).length)]
      rfl

theorem transactionRowsWritten_content (env : Env) (userId accessToken : String)
    (l : List RemoteAccount) :
    ∀ k k2 : Nat,
      (transactionRowsWritten env userId accessToken l k2).map Transaction.content
        = (transactionRowsWritten env userId accessToken l k).map Transaction.content := by
  induction l with
  | nil => intro k k2; rfl
  | cons a rest ih =>
    intro k k2
    unfold transactionRowsWritten
    cases env.agg.transactions accessToken (accountQuery a) with
    | error e => rfl
    | ok d =>
      simp only [List.map_append]
      rw [ih (k + 1 + (d.transactions.getD []).length)
          (k2 + 1 + (d.transactions.getD []).length),
        transactionRows_content env userId (d.transactions.getD []) (k + 1) (k2 + 1)]

/-- Claim C8: `syncUserData` is idempotent up to `updated_at`.  Running it a
second time against the same aggregator leaves `bank_accounts` and
`transactions` with the same rows in the same places once `updated_at` is
disregarded (hence the same number of rows, the same identity keys and the same
field values), and leaves the other two tables untouched.  This holds for every
initial store and every aggregator behaviour, failing requests included. -/
theorem syncUserData_idempotent (env : Env) (userId accessToken : String) (w : World) :
    ((syncUserData env userId accessToken
        (syncUserData env userId accessToken w).1).1.store.bank_accounts.map Account.content
      = (syncUserData env userId accessToken w).1.store.bank_accounts.map Account.content) ∧
    ((syncUserData env userId accessToken
        (syncUserData env userId accessToken w).1).1.store.transactions.map
          Transaction.content
      = (syncUserData env userId accessToken w).1.store.transactions.map
          Transaction.content) ∧
    (syncUserData env userId accessToken
        (syncUserData env userId accessToken w).1).1.store.bank_accounts.length
      = (syncUserData env userId accessToken w).1.store.bank_accounts.length ∧
    (syncUserData env userId accessToken
        (syncUserData env userId accessToken w).1).1.store.transactions.length
      = (syncUserData env userId accessToken w).1.store.transactions.length ∧
    (syncUserData env userId accessToken
        (syncUserData env userId accessToken w).1).1.store.oauth_states
      = (syncUserData env userId accessToken w).1.store.oauth_states ∧
    (syncUserData env userId accessToken
        (syncUserData env userId accessToken w).1).1.store.powens_tokens
      = (syncUserData env userId accessToken w).1.store.powens_tokens := by
  have h2 := (syncUserData_store env userId accessToken
    (syncUserData env userId accessToken w).1).1
  have h1 := (syncUserData_store env userId accessToken w).1
  have ha : (syncUserData env userId accessToken
        (syncUserData env userId accessToken w).1).1.store.bank_accounts.map Account.content
      = (syncUserData env userId accessToken w).1.store.bank_accounts.map
          Account.content := by
    rw [h2]
    simp only []
    rw [h1]
    simp only []
    exact upsertAll_twice Account.key Account.content (fun _ => rfl) _ _
      (accountRowsWritten_content env userId accessToken _ _ _) _
  have ht : (syncUserData env userId accessToken
        (syncUserData env userId accessToken w).1).1.store.transactions.map
          Transaction.content
      = (syncUserData env userId accessToken w).1.store.transactions.map
          Transaction.content := by
    rw [h2]
    simp only []
    rw [h1]
    simp only []
    exact upsertAll_twice Transaction.key Transaction.content (fun _ => rfl) _ _
      (transactionRowsWritten_content env userId accessToken _ _ _) _
  refine ⟨ha, ht, ?_, ?_, ?_, ?_⟩
  · simpa using congrArg List.length ha
  · simpa using congrArg List.length ht
  · rw [h2]
  · rw [h2]

/-- Instance of C8: on an empty store two accounts and two transactions are
written; a second run keeps both counts and every field except `updated_at`,
which it does change. -/
theorem syncUserData_idempotent_witness :
    (syncUserData (fastEnv goodAgg) "u1" "at-new" emptyWorld).1.store.bank_accounts.length = 2 ∧
    (syncUserData (fastEnv goodAgg) "u1" "at-new" emptyWorld).1.store.transactions.length = 2 ∧
    (syncUserData (fastEnv goodAgg) "u1" "at-new"
      (syncUserData (fastEnv goodAgg) "u1" "at-new" emptyWorld).1).1.store.bank_accounts.map
        Account.content
      = (syncUserData (fastEnv goodAgg) "u1" "at-new" emptyWorld).1.store.bank_accounts.map
        Account.content ∧
    (syncUserData (fastEnv goodAgg) "u1" "at-new"
      (syncUserData (fastEnv goodAgg) "u1" "at-new" emptyWorld).1).1.store.bank_accounts
      ≠ (syncUserData (fastEnv goodAgg) "u1" "at-new" emptyWorld).1.store.bank_accounts :=
  ⟨by decide, by decide,
    (syncUserData_idempotent (fastEnv goodAgg) "u1" "at-new" emptyWorld).1, by decide⟩

/-! ## Failure of a transactions listing -/

theorem saveAccounts_abort (env : Env) (userId accessToken : String)
    (account : RemoteAccount) (post : List RemoteAccount) (e : JsError)
    (hfail : env.agg.transactions accessToken (accountQuery account) = .error e)
    (pre : List RemoteAccount) :
    ∀ w : World,
      (∀ b ∈ pre, ∃ d, env.agg.transactions accessToken (accountQuery b) = .ok d) →
      saveAccounts env userId accessToken (pre ++ account :: post) w
        = saveAccounts env userId accessToken (pre ++ [account]) w ∧
      (saveAccounts env userId accessToken (pre ++ [account]) w).2 = .error e ∧
      (saveAccounts env userId accessToken (pre ++ [account]) w).1.calls
        = w.calls ++ (pre ++ [account]).map
            (fun b => AggCall.transactions accessToken (accountQuery b)) := by
  have hq : ∀ b : RemoteAccount, accountQuery b
      = { accountId := some b.id, from_ := none, to_ := none, limit := "100" } := fun _ => rfl
  induction pre with
  | nil =>
    intro w _
    rw [hq] at hfail
    have hone : ∀ l, saveAccounts env userId accessToken (account :: l) w
        = (logCall (.transactions accessToken (accountQuery account))
            (setStore { (tick w).store with
              bank_accounts := upsertBy Account.key (accountRow userId account (now env w))
                (tick w).store.bank_accounts } (tick w)), .error e) := by
      intro l
      rw [saveAccounts]
      simp only [hfail]
      rfl
    rw [List.nil_append, List.nil_append, hone, hone]
    exact ⟨rfl, rfl, rfl⟩
  | cons b rest ih =>
    intro w hpre
    obtain ⟨d, hd⟩ := hpre b (List.mem_cons_self _ _)
    rw [hq] at hd
    have hrest : ∀ c ∈ rest, ∃ d, env.agg.transactions accessToken (accountQuery c) = .ok d :=
      fun c hc => hpre c (List.mem_cons_of_mem _ hc)
    have hstep : ∀ l, saveAccounts env userId accessToken (b :: l) w
        = saveAccounts env userId accessToken l
            (saveTransactions env userId (d.transactions.getD [])
              (logCall (.transactions accessToken (accountQuery b))
                (setStore { (tick w).store with
                  bank_accounts := upsertBy Account.key (accountRow userId b (now env w))
                    (tick w).store.bank_accounts } (tick w)))) := by
      intro l
      rw [saveAccounts]
      simp only [hd]
      rfl
    rw [List.cons_append, List.cons_append, hstep, hstep]
    obtain ⟨h1, h2, h3⟩ := ih (saveTransactions env userId (d.transactions.getD [])
      (logCall (.transactions accessToken (accountQuery b))
        (setStore { (tick w).store with
          bank_accounts := upsertBy Account.key (accountRow userId b (now env w))
            (tick w).store.bank_accounts } (tick w)))) hrest
    refine ⟨h1, h2, ?_⟩
    rw [h3, saveTransactions_eq]
    simp [logCall, setStore, tick]

/-- Claim C9: when the accounts listing returns `pre ++ account :: post`, the
transactions of every account of `pre` are fetched successfully and the fetch
for `account` fails with `e`, then `syncUserData` throws `e` to its caller; its
effect on the world is that of processing `pre ++ [account]` alone, whatever
`post` is, and the only requests sent are the accounts listing and one
transactions listing for each account of `pre ++ [account]`.  The `/sync` route
calling it answers 500 `Sync failed`. -/
theorem syncUserData_aborts_on_failed_fetch (env : Env) (userId accessToken : String)
    (w : World) (data : AccountsData) (pre post : List RemoteAccount)
    (account : RemoteAccount) (e : JsError)
    (hacc : env.agg.accounts accessToken = .ok data)
    (hlist : data.accounts = some (pre ++ account :: post))
    (hpre : ∀ b ∈ pre, ∃ d, env.agg.transactions accessToken (accountQuery b) = .ok d)
    (hfail : env.agg.transactions accessToken (accountQuery account) = .error e) :
    (syncUserData env userId accessToken w).2 = .error e ∧
    (syncUserData env userId accessToken w).1
      = (saveAccounts env userId accessToken (pre ++ [account])
          (logCall (.accounts accessToken) w)).1 ∧
    (syncUserData env userId accessToken w).1.calls
      = w.calls ++ [.accounts accessToken] ++ (pre ++ [account]).map
          (fun b => AggCall.transactions accessToken (accountQuery b)) ∧
    (∀ w0 : World, accessToken ≠ "" →
      getValidAccessToken env userId w0 = (w, .ok (some accessToken)) →
      (sync env userId w0).2 = ⟨500, .error "Sync failed"⟩) := by
  obtain ⟨h1, h2, h3⟩ := saveAccounts_abort env userId accessToken account post e hfail pre
    (logCall (.accounts accessToken) w) hpre
  have hs : syncUserData env userId accessToken w
      = saveAccounts env userId accessToken (pre ++ [account])
          (logCall (.accounts accessToken) w) := by
    unfold syncUserData
    simp only [hacc, hlist, Option.getD_some]
    exact h1
  refine ⟨by rw [hs, h2], by rw [hs], by rw [hs, h3]; rfl, ?_⟩
  intro w0 hne hgv
  unfold sync
  rw [hgv]
  simp only [truthy, ne_eq, hne, not_false_eq_true, decide_True, if_true, jsStr]
  cases hr : syncUserData env userId accessToken w with
  | mk w2 r =>
    have : r = .error e := by
      have := h2
      rw [← hs, hr] at this
      exact this
    rw [this]

/-- Instance of C9: three accounts are listed and the fetch for the second
fails; `a3` is neither fetched nor written. -/
theorem syncUserData_aborts_on_failed_fetch_witness :
    ((fastEnv failA2Agg).agg.accounts "at-new"
        = .ok ⟨some ([sampleAccount "a1"] ++ sampleAccount "a2" :: [sampleAccount "a3"])⟩ ∧
      (∀ b ∈ [sampleAccount "a1"],
        ∃ d, (fastEnv failA2Agg).agg.transactions "at-new" (accountQuery b) = .ok d) ∧
      (fastEnv failA2Agg).agg.transactions "at-new" (accountQuery (sampleAccount "a2"))
        = .error upstream503) ∧
    (syncUserData (fastEnv failA2Agg) "u1" "at-new" emptyWorld).2 = .error upstream503 ∧
    (syncUserData (fastEnv failA2Agg) "u1" "at-new" emptyWorld).1.calls
      = [.accounts "at-new", .transactions "at-new" (accountQuery (sampleAccount "a1")),
          .transactions "at-new" (accountQuery (sampleAccount "a2"))] ∧
    (syncUserData (fastEnv failA2Agg) "u1" "at-new" emptyWorld).1.store.bank_accounts.map
        (fun r => r.powens_account_id) = ["a1", "a2"] ∧
    (syncUserData (fastEnv failA2Agg) "u1" "at-new" emptyWorld).1.store.transactions.map
        (fun r => r.powens_transaction_id) = ["a1"] :=
  ⟨⟨rfl, fun b hb => by
        rw [List.mem_singleton.mp hb]
        exact ⟨_, rfl⟩, rfl⟩,
    (syncUserData_aborts_on_failed_fetch (fastEnv failA2Agg) "u1" "at-new" emptyWorld
      ⟨some ([sampleAccount "a1"] ++ sampleAccount "a2" :: [sampleAccount "a3"])⟩
      [sampleAccount "a1"] [sampleAccount "a3"] (sampleAccount "a2") upstream503
      rfl rfl (fun b hb => by
        rw [List.mem_singleton.mp hb]
        exact ⟨_, rfl⟩) rfl).1,
    by decide, by decide, by decide⟩

/-! ## Single use of an OAuth state -/

theorem single_eq_some {α : Type} (l : List α) (x : α) (h : single l = some x) :
    l = [x] := by
  match l, h with
  | [y], h =>
    simp only [single, Option.some.injEq] at h
    rw [h]

theorem getValidAccessToken_frame (env : Env) (userId : String) (w : World) :
    (getValidAccessToken env userId w).1.store.oauth_states = w.store.oauth_states ∧
    (getValidAccessToken env userId w).1.draws = w.draws := by
  unfold getValidAccessToken
  split
  · exact ⟨rfl, rfl⟩
  · dsimp only
    split
    · split
      · exact ⟨rfl, rfl⟩
      · exact ⟨rfl, rfl⟩
    · exact ⟨rfl, rfl⟩

theorem syncUserData_frame (env : Env) (userId accessToken : String) (w : World) :
    (syncUserData env userId accessToken w).1.store.oauth_states = w.store.oauth_states ∧
    (syncUserData env userId accessToken w).1.draws = w.draws := by
  obtain ⟨h1, h2⟩ := syncUserData_store env userId accessToken w
  exact ⟨by rw [h1], h2⟩

theorem exchange_token_error (env : Env) (w : World) (code state userId : String)
    (stateData : OAuthState) (e : JsError)
    (hc : code ≠ "") (hs : state ≠ "") (hu : userId ≠ "")
    (hrow : statesOf state userId w = [stateData])
    (hfresh : ¬ stateData.expires_at < now env w)
    (htok : env.agg.token (codeRequest env code) = .error e) :
    exchange env ⟨some code, some state, some userId⟩ w
      = (logCall (.token (codeRequest env code)) (tick w),
          ⟨500, .errorDetails "Failed to exchange code" e.details⟩) := by
  unfold statesOf at hrow
  unfold codeRequest at htok
  unfold exchange
  simp only [hc, hs, hu, or_self, if_false, hrow, single, hfresh, htok]
  rfl

/-- Every run of `/exchange` either leaves `oauth_states` alone and does not
answer 200, or had all three fields present and deleted the rows carrying the
posted state. -/
theorem exchange_cases (env : Env) (body : ExchangeBody) (w : World) :
    ((exchange env body w).1.store.oauth_states = w.store.oauth_states ∧
      (exchange env body w).1.draws = w.draws ∧
      (exchange env body w).2.status ≠ 200) ∨
    (∃ state, body.state = some state ∧ state ≠ "" ∧
      (∃ code, body.code = some code ∧ code ≠ "") ∧
      (∃ userId, body.userId = some userId ∧ userId ≠ "") ∧
      (exchange env body w).1.store.oauth_states
        = w.store.oauth_states.filter (fun r => !decide (r.state = state)) ∧
      (exchange env body w).1.draws = w.draws) := by
  obtain ⟨c, s, u⟩ := body
  cases c with
  | none => left; simp [exchange]
  | some code =>
  cases s with
  | none => left; simp [exchange]
  | some state =>
  cases u with
  | none => left; simp [exchange]
  | some userId =>
  by_cases hc : code = ""
  · left
    simp [exchange, hc]
  by_cases hs : state = ""
  · left
    simp [exchange, hs]
  by_cases hu : userId = ""
  · left
    simp [exchange, hu]
  cases hsingle : single (statesOf state userId w) with
  | none =>
    left
    unfold statesOf at hsingle
    simp [exchange, hc, hs, hu, hsingle]
  | some stateData =>
    have hrow := single_eq_some _ _ hsingle
    by_cases hexp : stateData.expires_at < now env w
    · left
      rw [exchange_expired env w code state userId stateData hc hs hu hrow hexp]
      exact ⟨rfl, rfl, by simp⟩
    · cases htok : env.agg.token (codeRequest env code) with
      | error e =>
        left
        rw [exchange_token_error env w code state userId stateData e hc hs hu hrow hexp htok]
        exact ⟨rfl, rfl, by simp⟩
      | ok tokenResponse =>
        right
        rw [exchange_after_token env w code state userId stateData tokenResponse
          hc hs hu hrow hexp htok]
        obtain ⟨h1, h2⟩ := syncUserData_frame env userId tokenResponse.access_token
          (tokenStored env code state userId stateData tokenResponse w)
        exact ⟨state, rfl, hs, ⟨code, rfl, hc⟩, ⟨userId, rfl, hu⟩, h1, h2⟩

theorem accounts_frame (env : Env) (userId : String) (w : World) :
    (accounts env userId w).1.store.oauth_states = w.store.oauth_states ∧
    (accounts env userId w).1.draws = w.draws := by
  obtain ⟨h1, h2⟩ := getValidAccessToken_frame env userId w
  unfold accounts
  cases hg : getValidAccessToken env userId w with
  | mk w1 r =>
    rw [hg] at h1 h2
    cases r with
    | error e => exact ⟨h1, h2⟩
    | ok tok =>
      simp only []
      split
      · split <;> exact ⟨h1, h2⟩
      · exact ⟨h1, h2⟩

theorem transactions_frame (env : Env) (userId : String) (query : TransactionsQuery)
    (w : World) :
    (transactions env userId query w).1.store.oauth_states = w.store.oauth_states ∧
    (transactions env userId query w).1.draws = w.draws := by
  obtain ⟨h1, h2⟩ := getValidAccessToken_frame env userId w
  unfold transactions
  cases hg : getValidAccessToken env userId w with
  | mk w1 r =>
    rw [hg] at h1 h2
    cases r with
    | error e => exact ⟨h1, h2⟩
    | ok tok =>
      simp only []
      split
      · split <;> exact ⟨h1, h2⟩
      · exact ⟨h1, h2⟩

theorem sync_frame (env : Env) (userId : String) (w : World) :
    (sync env userId w).1.store.oauth_states = w.store.oauth_states ∧
    (sync env userId w).1.draws = w.draws := by
  obtain ⟨h1, h2⟩ := getValidAccessToken_frame env userId w
  unfold sync
  cases hg : getValidAccessToken env userId w with
  | mk w1 r =>
    rw [hg] at h1 h2
    cases r with
    | error e => exact ⟨h1, h2⟩
    | ok tok =>
      simp only []
      split
      · obtain ⟨f1, f2⟩ := syncUserData_frame env userId (jsStr tok) w1
        cases hr : syncUserData env userId (jsStr tok) w1 with
        | mk w2 r2 =>
          rw [hr] at f1 f2
          cases r2 with
          | error e => exact ⟨f1.trans h1, f2.trans h2⟩
          | ok u => exact ⟨f1.trans h1, f2.trans h2⟩
      · exact ⟨h1, h2⟩

theorem consumed_of_subset (state : String) (d : Nat) (w w2 : World)
    (h : Consumed state d w)
    (hsub : ∀ r ∈ w2.store.oauth_states, r ∈ w.store.oauth_states)
    (hd : w2.draws = w.draws) : Consumed state d w2 :=
  ⟨fun r hr => h.1 r (hsub r hr), by rw [hd]; exact h.2⟩

theorem consumed_of_eq (state : String) (d : Nat) (w w2 : World)
    (h : Consumed state d w)
    (hs : w2.store.oauth_states = w.store.oauth_states)
    (hd : w2.draws = w.draws) : Consumed state d w2 :=
  consumed_of_subset state d w w2 h (fun r hr => by rw [hs] at hr; exact hr) hd

theorem handle_consumed (env : Env) (state : String) (d : Nat)
    (hrand : ∀ n, d ≤ n → env.randomHex n ≠ state) (r : Request) (w : World)
    (h : Consumed state d w) : Consumed state d (handle env r w).1 := by
  cases r with
  | auth userId =>
    cases userId with
    | none => exact h
    | some uid =>
      by_cases hu : uid = ""
      · simp only [handle, auth, hu, if_true]
        exact h
      · simp only [handle]
        rw [auth_world env w uid hu]
        refine ⟨?_, Nat.le_succ_of_le h.2⟩
        intro r hr
        simp only [List.mem_append, List.mem_singleton] at hr
        rcases hr with hr | hr
        · exact h.1 r hr
        · rw [hr]
          exact hrand _ h.2
  | exchange body =>
    simp only [handle]
    rcases exchange_cases env body w with ⟨h1, h2, _⟩ | ⟨st, _, _, _, _, h1, h2⟩
    · exact consumed_of_eq state d w _ h h1 h2
    · refine consumed_of_subset state d w _ h ?_ h2
      intro r hr
      rw [h1] at hr
      exact (List.mem_filter.mp hr).1
  | accounts userId =>
    exact consumed_of_eq state d w _ h (accounts_frame env userId w).1
      (accounts_frame env userId w).2
  | transactions userId query =>
    exact consumed_of_eq state d w _ h (transactions_frame env userId query w).1
      (transactions_frame env userId query w).2
  | sync userId =>
    exact consumed_of_eq state d w _ h (sync_frame env userId w).1
      (sync_frame env userId w).2

theorem serve_consumed (env : Env) (state : String) (d : Nat)
    (hrand : ∀ n, d ≤ n → env.randomHex n ≠ state) (reqs : List Request) :
    ∀ w : World, Consumed state d w → Consumed state d (serve env reqs w) := by
  induction reqs with
  | nil => intro w h; exact h
  | cons r rest ih =>
    intro w h
    exact ih _ (handle_consumed env state d hrand r w h)

/-- Claim C3: once `/exchange` has answered `success: true` for
`(code, state, userId)`, no row of `oauth_states` carries `state` any more, and
after any further sequence of requests to the routes, provided no later
`/auth` draws the same state token again, an exchange with the same state and
user (and any code) answers 400 `Invalid state` and changes nothing. -/
theorem exchange_replay_rejected (env : Env) (w : World) (code state userId code2 : String)
    (reqs : List Request)
    (hok : (exchange env ⟨some code, some state, some userId⟩ w).2
      = ⟨200, .success "Bank connection successful"⟩)
    (hrand : ∀ n, (exchange env ⟨some code, some state, some userId⟩ w).1.draws ≤ n →
      env.randomHex n ≠ state)
    (hc2 : code2 ≠ "") :
    (∀ r ∈ (exchange env ⟨some code, some state, some userId⟩ w).1.store.oauth_states,
      r.state ≠ state) ∧
    exchange env ⟨some code2, some state, some userId⟩
        (serve env reqs (exchange env ⟨some code, some state, some userId⟩ w).1)
      = (serve env reqs (exchange env ⟨some code, some state, some userId⟩ w).1,
          ⟨400, .error "Invalid state"⟩) := by
  rcases exchange_cases env ⟨some code, some state, some userId⟩ w with
    ⟨_, _, h3⟩ | ⟨st, hst, hs, _, ⟨u, hu1, hu⟩, h1, _⟩
  · rw [hok] at h3
    exact absurd rfl h3
  · simp only [Option.some.injEq] at hst hu1
    subst hst
    subst hu1
    have hgone : ∀ r ∈ (exchange env ⟨some code, some state, some userId⟩
        w).1.store.oauth_states, r.state ≠ state := by
      intro r hr
      rw [h1] at hr
      simpa using (List.mem_filter.mp hr).2
    refine ⟨hgone, ?_⟩
    have hlater := serve_consumed env state _ hrand reqs _ ⟨hgone, Nat.le_refl _⟩
    exact exchange_no_matching_state env _ code2 state userId hc2 hs hu
      (fun r hr hboth => hlater.1 r hr hboth.1)

/-- Instance of C3: user `u2` exchanges the state `abc123`, then asks for a new
authorization, replays the exchange and triggers a sync; a further replay is
answered 400 `Invalid state`. -/
theorem exchange_replay_rejected_witness :
    ((exchange (fastEnv goodAgg) ⟨some "c1", some "abc123", some "u2"⟩ pendingWorld).2
        = ⟨200, .success "Bank connection successful"⟩ ∧
      (∀ n, (exchange (fastEnv goodAgg) ⟨some "c1", some "abc123", some "u2"⟩
          pendingWorld).1.draws ≤ n → (fastEnv goodAgg).randomHex n ≠ "abc123") ∧
      "c1" ≠ "") ∧
    (exchange (fastEnv goodAgg) ⟨some "c1", some "abc123", some "u2"⟩
        (serve (fastEnv goodAgg)
          [.auth (some "u2"), .exchange ⟨some "c1", some "abc123", some "u2"⟩, .sync "u2"]
          (exchange (fastEnv goodAgg) ⟨some "c1", some "abc123", some "u2"⟩
            pendingWorld).1)).2
      = ⟨400, .error "Invalid state"⟩ :=
  ⟨⟨by decide, fun _ _ => (by decide : "f00d" ≠ "abc123"), by decide⟩,
    congrArg Prod.snd (exchange_replay_rejected (fastEnv goodAgg) pendingWorld
      "c1" "abc123" "u2" "c1"
      [.auth (some "u2"), .exchange ⟨some "c1", some "abc123", some "u2"⟩, .sync "u2"]
      (by decide) (fun _ _ => (by decide : "f00d" ≠ "abc123")) (by decide)).2⟩

end Powens
